import Mathlib

/-!
# Verification of the rsformat template engine (`src/format.ts`, `buildString`/`formatParam`)

A shallow embedding of the rust-style format-specifier engine:

* JavaScript values reaching the formatter are modelled by `JSVal`; JS numbers
  are modelled by their canonical decimal form `JSNum` (sign, integer part,
  fraction digits), which is exactly the information `Number.prototype.toString`
  exposes, plus an exact rational value `JSNum.val` for the arithmetic
  comparisons the engine performs (`JsRat`, unnormalized exact fractions).
* `formatParam` is split into the four phases of the source function
  (type conversion, precision shaping, sign/zero-pad, alignment), threaded
  with the mutable specifier object so that the in-place mutation performed by
  the ordinal branch is observable.
* `buildString` embeds the template walk, back-reference resolution (with fuel,
  since the source `while` loop can genuinely diverge), specifier parsing with
  deferred width/precision fusing, and final concatenation.
-/

namespace RsFormat

/-! ## Decimal/radix digit strings -/

/-- Little-endian base-`b` digits of `n`, with an explicit fuel argument
(`n` itself is always enough fuel for `b ≥ 2`). -/
def digitsAux (b : Nat) : Nat → Nat → List Nat
  | 0, _ => []
  | _ + 1, 0 => []
  | f + 1, n => n % b :: digitsAux b f (n / b)

/-- Little-endian base-`b` digits of `n` (empty for `n = 0`). -/
def natDigitsLE (b n : Nat) : List Nat := digitsAux b n n

/-- `n` rendered in base `b`, as JavaScript `Number`/`BigInt` `toString(b)`
renders a non-negative integer (lowercase letters for digits above 9). -/
def natToBaseStr (b n : Nat) : String :=
  if n = 0 then "0" else ⟨((natDigitsLE b n).map Nat.digitChar).reverse⟩

/-- `n` rendered in decimal. -/
def natToDecStr (n : Nat) : String := natToBaseStr 10 n

/-- An integer rendered in base `b`, as JS renders integral numbers/bigints. -/
def intToBaseStr (b : Nat) (m : Int) : String :=
  (if m < 0 then "-" else "") ++ natToBaseStr b m.natAbs

/-- An integer rendered in decimal. -/
def intToDecStr (m : Int) : String := intToBaseStr 10 m

theorem digitsAux_zero (b f : Nat) : digitsAux b f 0 = [] := by
  cases f <;> rfl

theorem digitsAux_fuel (b : Nat) (hb : 2 ≤ b) :
    ∀ f f' n, n ≤ f → n ≤ f' → digitsAux b f n = digitsAux b f' n := by
  intro f
  induction f using Nat.strong_induction_on with
  | _ f ih =>
    intro f' n hf hf'
    match f, f', n with
    | _, _, 0 => rw [digitsAux_zero, digitsAux_zero]
    | 0, _, n + 1 => omega
    | _ + 1, 0, n + 1 => omega
    | g + 1, g' + 1, n + 1 =>
      simp only [digitsAux]
      have hdiv : (n + 1) / b < n + 1 := Nat.div_lt_self (Nat.succ_pos n) hb
      have := ih g (by omega) g' ((n + 1) / b) (by omega) (by omega)
      rw [this]

theorem natDigitsLE_pos (b n : Nat) (hb : 2 ≤ b) (hn : 0 < n) :
    natDigitsLE b n = n % b :: natDigitsLE b (n / b) := by
  unfold natDigitsLE
  match n, hn with
  | n + 1, _ =>
    simp only [digitsAux]
    congr 1
    have hdiv : (n + 1) / b < n + 1 := Nat.div_lt_self (Nat.succ_pos n) hb
    exact digitsAux_fuel b hb n ((n + 1) / b) ((n + 1) / b) (by omega) (le_refl _)

/-! ## Exact rational arithmetic for JS numbers

JS numeric comparisons and arithmetic on widths/precisions/reference indices
are modelled exactly, by unnormalized fractions with a positive denominator
(an idealization of IEEE doubles that is exact on the small integers and
simple fractions the engine manipulates).  All operations are plain integer
arithmetic, so concrete runs reduce in the kernel. -/
structure JsRat where
  num : Int
  den : Int
  den_pos : 0 < den

namespace JsRat

protected def ofInt (m : Int) : JsRat := ⟨m, 1, Int.one_pos⟩

protected def ofNat (n : Nat) : JsRat := ⟨n, 1, Int.one_pos⟩

protected def add (a b : JsRat) : JsRat :=
  ⟨a.num * b.den + b.num * a.den, a.den * b.den, mul_pos a.den_pos b.den_pos⟩

protected def sub (a b : JsRat) : JsRat :=
  ⟨a.num * b.den - b.num * a.den, a.den * b.den, mul_pos a.den_pos b.den_pos⟩

protected def mul (a b : JsRat) : JsRat :=
  ⟨a.num * b.num, a.den * b.den, mul_pos a.den_pos b.den_pos⟩

/-- Division (the `b = 0` case is never reached by the engine). -/
protected def div (a b : JsRat) : JsRat :=
  if h : 0 < b.num then ⟨a.num * b.den, a.den * b.num, mul_pos a.den_pos h⟩
  else if h2 : b.num < 0 then
    ⟨-(a.num * b.den), a.den * (-b.num), mul_pos a.den_pos (by omega)⟩
  else ⟨0, 1, Int.one_pos⟩

/-- `a < b` on values (cross-multiplication; denominators are positive). -/
protected def blt (a b : JsRat) : Bool := a.num * b.den < b.num * a.den

/-- `a ≤ b` on values. -/
protected def ble (a b : JsRat) : Bool := a.num * b.den ≤ b.num * a.den

/-- JS `==` between two numbers: value equality. -/
protected def beq (a b : JsRat) : Bool := a.num * b.den = b.num * a.den

/-- `⌊a⌋`. -/
protected def floor (a : JsRat) : Int := a.num.fdiv a.den

/-- `⌈a⌉`. -/
protected def ceil (a : JsRat) : Int := -((-a.num).fdiv a.den)

/-- `ToIntegerOrInfinity`: truncation toward zero (used by
`String.prototype.repeat` and `slice`). -/
protected def trunc (a : JsRat) : Int := a.num.tdiv a.den

/-- The value, as a Mathlib rational (used only in proofs). -/
protected def toQ (a : JsRat) : Rat := (a.num : Rat) / (a.den : Rat)

end JsRat

/-! ## JavaScript numbers (`number`) in their canonical decimal form

A finite JS number whose `toString()` is plain decimal is determined by its
sign, integer part and fraction digits; that is the data the formatter reads
(`toString`, `split('.')`) together with the exact value used in arithmetic
comparisons (modelled by `val`).  Numbers whose `toString` uses exponent
form (`|x| ≥ 1e21` or `< 1e-6`), `NaN` and the infinities are outside the
model; no claim depends on them. -/
structure JSNum where
  neg : Bool
  /-- integer part -/
  ip : Nat
  /-- fraction digits, most significant first, each `< 10`, no trailing zero -/
  fp : List Nat
  deriving DecidableEq, Repr

/-- The value of a fraction-digit list, e.g. `[2, 5] ↦ 0.25`. -/
def fracVal : List Nat → JsRat
  | [] => JsRat.ofNat 0
  | d :: ds => ((JsRat.ofNat d).add (fracVal ds)).div (JsRat.ofNat 10)

/-- The exact numeric value of a `JSNum`. -/
def JSNum.val (x : JSNum) : JsRat :=
  (JsRat.ofInt (if x.neg then -1 else 1)).mul ((JsRat.ofNat x.ip).add (fracVal x.fp))

/-- `Number.prototype.toString` (radix 10): sign, integer digits, and the
fraction digits after a decimal point when there are any.  `-0` prints `"0"`. -/
def JSNum.toString (x : JSNum) : String :=
  if x.neg ∧ x.ip = 0 ∧ x.fp = [] then "0"
  else
    (if x.neg then "-" else "") ++ natToDecStr x.ip ++
      (if x.fp = [] then "" else "." ++ ⟨x.fp.map Nat.digitChar⟩)

/-- `Number.prototype.toString(b)` for `b ≠ 10`.  Integral inputs convert
exactly.  For fractional inputs the runtime derives the fraction digits from
the underlying binary double (the spec defers to "the runtime's native radix
stringification semantics", §4.3); that part is modelled abstractly by
carrying the decimal fraction digits over — no claim exercises it. -/
def JSNum.toBaseString (b : Nat) (x : JSNum) : String :=
  (if x.neg ∧ ¬(x.ip = 0 ∧ x.fp = []) then "-" else "") ++ natToBaseStr b x.ip ++
    (if x.fp = [] then "" else "." ++ ⟨x.fp.map Nat.digitChar⟩)

/-- `Math.round`: `⌊x + 1/2⌋` (rounds half toward positive infinity). -/
def jsRound (x : JSNum) : Int := (x.val.add ⟨1, 2, by omega⟩).floor

/-- The `JSNum` for a natural number. -/
def JSNum.ofNat (n : Nat) : JSNum := ⟨false, n, []⟩

/-- The `JSNum` for an integer. -/
def JSNum.ofInt (m : Int) : JSNum := ⟨m < 0, m.natAbs, []⟩

/-! ## JavaScript values and runtime primitives -/

/-- The JS values that can reach the formatter as template parameters. -/
inductive JSVal where
  /-- a string primitive -/
  | str (s : String)
  /-- a number primitive -/
  | num (x : JSNum)
  /-- a bigint primitive -/
  | bigint (n : Int)
  /-- an object carrying a `__rs_param_ref` property (built by `rs.ref`);
  the property's value is itself a JS value -/
  | paramRef (r : JSVal)
  /-- any other plain object (no `__rs_param_ref` property) -/
  | obj
  /-- `undefined` (a missing parameter, or indexing an array off-key) -/
  | undef
  deriving DecidableEq, Repr

/-- The result of JS `typeof`. -/
inductive JsType where
  | number | bigint | string | object | undefined
  deriving DecidableEq, Repr

/-- `typeof v`. -/
def JSVal.typeof : JSVal → JsType
  | .str _ => .string
  | .num _ => .number
  | .bigint _ => .bigint
  | .paramRef _ => .object
  | .obj => .object
  | .undef => .undefined

/-- Exceptions the engine can raise (plus the runtime `TypeError`s it can
run into).  The two `Nat` payloads of the specifier errors are the slot index
and character offset baked into the thrown message. -/
inductive JsException where
  /-- `Parameter i: Invalid reference` -/
  | invalidReference (slot : Nat)
  /-- `Parameter i references itself recursively` -/
  | selfReference (slot : Nat)
  /-- `rs[param i, char c] Expected a number or number parameter for width specifier …` -/
  | invalidWidth (slot chr : Nat)
  /-- `rs[param i, char c] Expected a number or number parameter for precision specifier …` -/
  | invalidPrecision (slot chr : Nat)
  /-- `rs[param i, char c] Expected colon (':') or space (' ') at end of formatting specifier …` -/
  | malformedSpecifier (slot chr : Nat)
  /-- a runtime `TypeError` (calling a method of `undefined`) -/
  | typeError
  deriving DecidableEq, Repr

/-- `v.toString()`.  Throws a `TypeError` on `undefined`; plain objects
print `[object Object]`; bigints print without the `n` suffix. -/
def JSVal.toStr : JSVal → Except JsException String
  | .str s => .ok s
  | .num x => .ok x.toString
  | .bigint n => .ok (intToDecStr n)
  | .paramRef _ => .ok "[object Object]"
  | .obj => .ok "[object Object]"
  | .undef => .error .typeError

/-- `v.toString(b)` for a radix argument `b`.  `String.prototype.toString`
ignores the argument; objects print `[object Object]`; `undefined` throws. -/
def JSVal.toBaseStr (b : Nat) : JSVal → Except JsException String
  | .str s => .ok s
  | .num x => .ok (JSNum.toBaseString b x)
  | .bigint n => .ok (intToBaseStr b n)
  | .paramRef _ => .ok "[object Object]"
  | .obj => .ok "[object Object]"
  | .undef => .error .typeError

/-- `toLocaleString('en-US', {notation: 'scientific', maximumFractionDigits: 20})`
on the sign/digit decomposition of a number or bigint: a mantissa digit, an
optional fraction, and an uppercase `E` followed by the decimal exponent
(`0` formats as `"0E0"`).  The 20-digit fraction cap never bites, because a
JS number's decimal form carries at most 17 significant digits. -/
def sciString (neg : Bool) (ipDigits : List Nat) (fp : List Nat) : String :=
  let ds := ipDigits ++ fp
  if ds.all (· = 0) then "0E0"
  else
    let lead := ds.takeWhile (· = 0) |>.length
    let mant := (ds.drop lead).reverse.dropWhile (· = 0) |>.reverse
    let ex : Int := (ipDigits.length : Int) - (lead : Int) - 1
    (if neg then "-" else "") ++
      ⟨(mant.take 1).map Nat.digitChar⟩ ++
      (if mant.length ≤ 1 then "" else "." ++ ⟨(mant.drop 1).map Nat.digitChar⟩) ++
      "E" ++ intToDecStr ex

/-- Scientific-notation rendering of a number value. -/
def JSNum.toSciString (x : JSNum) : String :=
  sciString x.neg (if x.ip = 0 then [] else (natDigitsLE 10 x.ip).reverse) x.fp

/-- Scientific-notation rendering of a bigint value. -/
def intToSciString (m : Int) : String :=
  sciString (m < 0) ((natDigitsLE 10 m.natAbs).reverse) []

/-- Shallow model of the structural inspector (`node:util.inspect` with
unbounded depth).  The spec treats the inspector as an opaque external
capability (§6); only the shape needed by the formatter is modelled:
a deterministic string per value, wrapped in ANSI styling codes when colors
are requested.  No claim exercises debug formatting. -/
def jsInspect (v : JSVal) (colors : Bool) (compact : Bool) : String :=
  let base :=
    match v with
    | .str s => "'" ++ s ++ "'"
    | .num x => x.toString
    | .bigint n => intToDecStr n ++ "n"
    | .paramRef _ =>
      if compact then "\x7b __rs_param_ref: … \x7d" else "\x7b\n  __rs_param_ref: …\n\x7d"
    | .obj => "{}"
    | .undef => "undefined"
  if colors then "\x1b[33m" ++ base ++ "\x1b[39m" else base

/-- `s.repeat (List.replicate …)` as a string. -/
def strRepeat (s : String) (n : Nat) : String := ⟨(List.replicate n s.data).flatten⟩

/-- `String.prototype.repeat` with a JS-number count: the count goes through
`ToIntegerOrInfinity`, i.e. truncation toward zero.  (A negative count raises
a `RangeError` in JS; the clamp to `0` here is never hit by the engine, whose
repeat counts are non-negative.) -/
def jsRepeat (s : String) (q : JsRat) : String := strRepeat s q.trunc.toNat

/-- JS `%` on numbers: `a - b * trunc (a / b)`. -/
def jsMod (a b : JsRat) : JsRat := a.sub (b.mul (JsRat.ofInt (a.div b).trunc))

/-! ## Format specifiers (`src/format.ts` lines 345-357) -/

/-- `type AlignDirection = '<' | '^' | '>'`. -/
inductive AlignDirection where
  | left | center | right
  deriving DecidableEq, Repr

/-- `type Sign = '-' | '+' | ''`. -/
inductive Sign where
  | plus | minus | blank
  deriving DecidableEq, Repr

/-- `type FormatType = '?' | 'o' | 'x' | 'X' | 'b' | 'e' | 'E' | 'n' | 'N' | ''`. -/
inductive FormatType where
  | debug | octal | hexLower | hexUpper | binary
  | sciLower | sciUpper | ordinalLower | ordinalUpper | plain
  deriving DecidableEq, Repr

/-- The parsed specifier object handed to `formatParam`.  `width` and
`precision` are JS numbers (deferred width/precision can make them
non-integral), kept as exact rationals. -/
structure FormatSpecifier where
  fill : String
  align : AlignDirection
  force_sign : Sign
  pretty : Bool
  pad_zeroes : Bool
  width : JsRat
  precision : JsRat
  type : FormatType

/-! ## `formatParam` (lines 366-497), split into its four phase blocks -/

/-- `param.substring(param.length - 2)`: the last two characters (the whole
string when it is shorter — JS `substring` clamps a negative start to 0,
which `Nat` subtraction mirrors). -/
def lastTwoStr (s : String) : String := ⟨s.data.drop (s.data.length - 2)⟩

/-- The ordinal-suffix choice of lines 394-402, reading the final one/two
characters of the rounded value's decimal string. -/
def ordSuffixCode (s : String) : String :=
  let l2 := lastTwoStr s
  if l2 = "11" ∨ l2 = "12" ∨ l2 = "13" then "th"
  else
    match l2.data.get? (l2.data.length - 1) with
    | some '1' => "st"
    | some '2' => "nd"
    | some '3' => "rd"
    | _ => "th"

/-- The ordinal suffix as the spec words it (§4.3): by the final two decimal
digits for `11`/`12`/`13`, else by the final digit. -/
def ordSuffixSpec (m : Int) : String :=
  if m.natAbs % 100 = 11 ∨ m.natAbs % 100 = 12 ∨ m.natAbs % 100 = 13 then "th"
  else if m.natAbs % 10 = 1 then "st"
  else if m.natAbs % 10 = 2 then "nd"
  else if m.natAbs % 10 = 3 then "rd"
  else "th"

/-- `s.toUpperCase()` (ASCII). -/
def jsToUpper (s : String) : String := ⟨s.data.map Char.toUpper⟩

/-- Phase 1 (lines 367-426): convert the parameter by the specifier's type
code, tracking the local `param_type` tag and `true_length`, and — for the
ordinal types — mutate the caller's specifier (`pad_zeroes := false`,
`precision := -1`).  The `sciLower` branch of the source calls the
nonexistent method `param.toLowercase()` (a typo for `toLowerCase`) on the
converted string, so for number/bigint input it invariably throws a
`TypeError`; the error constructor embeds that throw. -/
def typeStep (param : JSVal) (format : FormatSpecifier) (debugColors : Bool) :
    Except JsException (String × JsType × Int × FormatSpecifier) :=
  let pt := param.typeof
  match format.type with
  | .octal => (param.toBaseStr 8).map fun s => (s, pt, (s.length : Int), format)
  | .hexLower => (param.toBaseStr 16).map fun s => (s, pt, (s.length : Int), format)
  | .hexUpper => (param.toBaseStr 16).map fun s =>
      (jsToUpper s, pt, ((jsToUpper s).length : Int), format)
  | .binary => (param.toBaseStr 2).map fun s => (s, pt, (s.length : Int), format)
  | .sciLower =>
    match param with
    | .num _ => .error .typeError
    | .bigint _ => .error .typeError
    | _ => param.toStr.map fun s => (s, pt, (s.length : Int), format)
  | .sciUpper =>
    match param with
    | .num x => .ok (x.toSciString, pt, (x.toSciString.length : Int), format)
    | .bigint n => .ok (intToSciString n, pt, ((intToSciString n).length : Int), format)
    | _ => param.toStr.map fun s => (s, pt, (s.length : Int), format)
  | .ordinalLower =>
    match param with
    | .num x =>
      let s := intToDecStr (jsRound x) ++ ordSuffixCode (intToDecStr (jsRound x))
      .ok (s, pt, (s.length : Int), { format with pad_zeroes := false, precision := JsRat.ofInt (-1) })
    | .bigint n =>
      let s := intToDecStr n ++ ordSuffixCode (intToDecStr n)
      .ok (s, pt, (s.length : Int), { format with pad_zeroes := false, precision := JsRat.ofInt (-1) })
    | _ => param.toStr.map fun s => (s, pt, (s.length : Int), format)
  | .ordinalUpper =>
    match param with
    | .num x =>
      let s := jsToUpper (intToDecStr (jsRound x) ++ ordSuffixCode (intToDecStr (jsRound x)))
      .ok (s, pt, (s.length : Int), { format with pad_zeroes := false, precision := JsRat.ofInt (-1) })
    | .bigint n =>
      let s := jsToUpper (intToDecStr n ++ ordSuffixCode (intToDecStr n))
      .ok (s, pt, (s.length : Int), { format with pad_zeroes := false, precision := JsRat.ofInt (-1) })
    | _ => param.toStr.map fun s => (s, pt, (s.length : Int), format)
  | .debug =>
    let tl := (jsInspect param false (!format.pretty)).length
    .ok (jsInspect param debugColors (!format.pretty), .string, (tl : Int), format)
  | .plain => param.toStr.map fun s => (s, pt, (s.length : Int), format)

/-- `post` of `let [pre, post] = s.split('.')`: the text between the first
dot and the next dot (or the end), `none` when there is no dot. -/
def postDot (l : List Char) : Option (List Char) :=
  match l.dropWhile (· ≠ '.') with
  | [] => none
  | _ :: t => some (t.takeWhile (· ≠ '.'))

/-- Phase 2 (lines 427-438): radix-point precision shaping on numbers.
`((post || '') + '0'.repeat(p)).slice(0, p)` pads with trailing zeros and
truncates to exactly `p` digits; `p = 0` drops the point entirely. -/
def precisionStep (s : String) (pt : JsType) (tl : Int) (format : FormatSpecifier) :
    String × Int :=
  if pt = .number ∧ format.precision.beq (JsRat.ofInt (-1)) = false then
    let pre : String := ⟨s.data.takeWhile (· ≠ '.')⟩
    if format.precision.beq (JsRat.ofNat 0) = true then (pre, (pre.length : Int))
    else
      let p := format.precision.trunc.toNat
      let post := (((postDot s.data).getD []) ++ List.replicate p '0').take p
      (⟨pre.data ++ '.' :: post⟩, ((pre.length + 1 + post.length : Nat) : Int))
  else (s, tl)

/-- The radix tag prepended in pretty mode (lines 454-467). -/
def radixTag (t : FormatType) : String :=
  match t with
  | .octal => "0o"
  | .hexLower => "0x"
  | .hexUpper => "0x"
  | .binary => "0b"
  | _ => ""

/-- Phase 3 (lines 440-477): on numbers/bigints, strip a leading `-`,
compute the sign prefix from `force_sign`, append the pretty radix tag, and
left-pad the digits with `'0'` while `param.length < width - maybe_sign.length`
when `pad_zeroes` is set (the returned `Bool` is the source's `filled` flag).
The closed form of the while loop pads up to `⌈width - maybe_sign.length⌉`
characters of digits, the first length at which the loop condition fails. -/
def signPadStep (s : String) (pt : JsType) (tl : Int) (format : FormatSpecifier) :
    String × Int × Bool :=
  if pt = .number ∨ pt = .bigint then
    let stripped := (s.data.take 1) = ['-']
    let core : String := if stripped then ⟨s.data.drop 1⟩ else s
    let sign : String :=
      if stripped then "-"
      else if format.force_sign = .plus then "+"
      else if format.force_sign = .minus then " "
      else ""
    let sign := sign ++ (if format.pretty then radixTag format.type else "")
    if format.pad_zeroes then
      let padded := ((format.width.sub (JsRat.ofNat sign.length)).ceil - (core.length : Int)).toNat
      (sign ++ strRepeat "0" padded ++ core,
        tl + (padded : Int) + (sign.length : Int), true)
    else (sign ++ core, tl + (sign.length : Int), false)
  else (s, tl, false)

/-- Phase 4 (lines 479-495): the alignment engine.  Skipped when zero-padding
already ran (`filled`) or the width does not exceed the true length.  The
repeat counts follow the source's JS float arithmetic: `diff - diff / 2` on
the left and `diff / 2 + diff % 2` on the right, truncated by `repeat`. -/
def alignStep (s : String) (tl : Int) (format : FormatSpecifier) (filled : Bool) : String :=
  if ¬filled ∧ (JsRat.ofInt tl).blt format.width = true then
    let diff : JsRat := format.width.sub (JsRat.ofInt tl)
    match format.align with
    | .right => jsRepeat format.fill diff ++ s
    | .left => s ++ jsRepeat format.fill diff
    | .center =>
      jsRepeat format.fill (diff.sub (diff.div (JsRat.ofNat 2))) ++ s ++
        jsRepeat format.fill ((diff.div (JsRat.ofNat 2)).add (jsMod diff (JsRat.ofNat 2)))
  else s

/-- `formatParam` (lines 366-497): the four phases in order.  The returned
specifier is the caller's object after the call (the ordinal branch mutates
it in place). -/
def formatParam (param : JSVal) (format : FormatSpecifier) (debugColors : Bool) :
    Except JsException (String × FormatSpecifier) :=
  (typeStep param format debugColors).map fun (s, pt, tl, format1) =>
    let (s2, tl2) := precisionStep s pt tl format1
    let (s3, tl3, filled) := signPadStep s2 pt tl2 format1
    (alignStep s3 tl3 format1 filled, format1)

/-- Modelled from the spec's words (§4.4 step 4 / §4.5, the invariant of
claim C5): the same pipeline with the Alignment Engine omitted.  Used only
to compare against `formatParam` when zero-padding is in effect. -/
def formatParamNoAlign (param : JSVal) (format : FormatSpecifier) (debugColors : Bool) :
    Except JsException (String × FormatSpecifier) :=
  (typeStep param format debugColors).map fun (s, pt, tl, format1) =>
    let (s2, tl2) := precisionStep s pt tl format1
    let (s3, _, _) := signPadStep s2 pt tl2 format1
    (s3, format1)

/-! ## `buildString` (lines 232-343) -/

/-- `string[i]` on a JS string: the character, or `undefined` past the end. -/
def charAt (l : List Char) (i : Nat) : Option Char := l.get? i

/-- `is_digit` (line 195). -/
def isDigitCh (c : Char) : Bool := '0' ≤ c ∧ c ≤ '9'

/-- `Number('<digits>')` for a non-empty run of decimal digits. -/
def natOfDigits (l : List Char) : Nat :=
  l.foldl (fun acc c => 10 * acc + (c.toNat - '0'.toNat)) 0

/-- Whether a value is a back-reference object (`typeof v == 'object' &&
'__rs_param_ref' in v`). -/
def JSVal.isRef : JSVal → Bool
  | .paramRef _ => true
  | _ => false

/-- `params[q]` for a JS-number key `q`: the element when `q` is an integral
index inside the array, `undefined` otherwise (JS arrays have no property at
a fractional or negative key).  `params[-0]` is `params[0]`. -/
def jsIndex (params : List JSVal) (q : JsRat) : JSVal :=
  if 0 ≤ q.num ∧ q.num % q.den = 0 ∧ q.num / q.den < (params.length : Int) then
    params.getD (q.num / q.den).toNat JSVal.undef
  else JSVal.undef

/-- The back-reference resolution loop (lines 237-246) for the slot at index
`slot` (`i - 1` in the source).  `fuel` bounds the number of reference hops;
`none` means the source loop ran longer than `fuel` hops — in particular the
loop diverges on an input iff the result is `none` for every `fuel`.  There
is no visited-set: each hop only checks the reference for type, range, and
equality with the originating slot index. -/
def resolveRef (params : List JSVal) (slot : Nat) : Nat → JSVal → Option (Except JsException JSVal)
  | fuel, .paramRef r =>
    match r with
    | .num x =>
      if x.val.blt (JsRat.ofNat 0) = true ∨ (JsRat.ofNat params.length).ble x.val = true then
        some (.error (.invalidReference slot))
      else if x.val.beq (JsRat.ofNat slot) = true then
        some (.error (.selfReference slot))
      else
        match fuel with
        | 0 => none
        | f + 1 => resolveRef params slot f (jsIndex params x.val)
    | _ => some (.error (.invalidReference slot))
  | _, v => some (.ok v)

/-- One iteration of the `buildString` loop body from the width stage on
(lines 285-340), after fill/align/sign/pretty/zero-pad have been scanned up
to `idx`.  Returns the fused segment text, the final cursor, the parsed
width/precision, the type code, and the updated segment index — or the
exception the stage throws.  Kept separate from `buildLoop` so the recursion
of the outer loop stays structural. -/
def parseTail (strings : List String) (params : List JSVal) (i : Nat)
    (string : List Char) (idx : Nat) :
    Except JsException (List Char × Nat × JsRat × JsRat × FormatType × Nat) :=
  -- Width (lines 285-294); the final component is the number of extra
  -- slots absorbed so far (the source's `++i` bumps), kept as an explicit
  -- delta so the outer loop's progress is structural.
  let widthStage : Except JsException (List Char × Nat × JsRat × Nat) :=
    if (charAt string idx).any isDigitCh then
      let run := (string.drop idx).takeWhile isDigitCh
      .ok (string, idx + run.length, JsRat.ofNat (natOfDigits run), 0)
    else if idx = string.length then
      match params.getD i .undef with
      | .num x =>
        .ok (string ++ ((strings.getD (i + 1) "undefined").data), idx, x.val, 1)
      | _ => .error (.invalidWidth (i - 1) idx)
    else
      .ok (string, idx, JsRat.ofNat 0, 0)
  widthStage.bind fun (string, idx, width, d1) =>
  -- Precision (lines 296-307); `i + d1` is the source's current `i`
  let precStage : Except JsException (List Char × Nat × JsRat × Nat) :=
    if charAt string idx = some '.' then
      if ¬ (charAt string (idx + 1)).any isDigitCh then
        match params.getD (i + d1) .undef with
        | .num x =>
          .ok (string ++ ((strings.getD (i + d1 + 1) "undefined").data), idx + 1, x.val, d1 + 1)
        | _ => .error (.invalidPrecision (i + d1 - 1) (idx + 1))
      else
        let run := (string.drop (idx + 1)).takeWhile isDigitCh
        .ok (string, idx + 1 + run.length, JsRat.ofNat (natOfDigits run), d1)
    else
      .ok (string, idx, JsRat.ofInt (-1), d1)
  precStage.bind fun (string, idx, precision, d) =>
  -- Format type (lines 309-320)
  let (ftype, idx) :=
    match charAt string idx with
    | some '?' => (FormatType.debug, idx + 1)
    | some 'o' => (FormatType.octal, idx + 1)
    | some 'x' => (FormatType.hexLower, idx + 1)
    | some 'X' => (FormatType.hexUpper, idx + 1)
    | some 'b' => (FormatType.binary, idx + 1)
    | some 'e' => (FormatType.sciLower, idx + 1)
    | some 'E' => (FormatType.sciUpper, idx + 1)
    | some 'n' => (FormatType.ordinalLower, idx + 1)
    | some 'N' => (FormatType.ordinalUpper, idx + 1)
    | _ => (FormatType.plain, idx)
  -- End of specifier (lines 322-326)
  match charAt string idx with
  | some ':' => .ok (string, idx + 1, width, precision, ftype, d)
  | some ' ' => .ok (string, idx, width, precision, ftype, d)
  | some _ => .error (.malformedSpecifier (i + d - 1) idx)
  | none => .ok (string, idx, width, precision, ftype, d)

/-- The `for` loop of `buildString` (lines 234-341) from segment `i` on,
with `out` the pieces pushed so far.  `none` propagates a diverging
back-reference chain.  `gas` counts remaining loop iterations; every
iteration advances `i` by at least one, so `strings.length` iterations are
always enough and the `gas = 0` case is unreachable from `buildString`. -/
def buildLoop (strings : List String) (params : List JSVal) (debugColors : Bool)
    (fuel : Nat) : Nat → Nat → List String → Option (Except JsException (List String))
  | 0, _, _ => none
  | gas + 1, i, out =>
  if i < strings.length then
    let string := (strings.getD i "").data
    match resolveRef params (i - 1) fuel (params.getD (i - 1) .undef) with
    | none => none
    | some (.error e) => some (.error e)
    | some (.ok param) =>
      if charAt string 0 = some ':' then
        if charAt string 1 = some ':' then
          -- Escaped ':' (lines 251-253): literal, no formatting; drop one ':'
          match param.toStr with
          | .error e => some (.error e)
          | .ok ps => buildLoop strings params debugColors fuel gas (i + 1)
              (out ++ [ps ++ ⟨string.drop 1⟩])
        else
          -- Fill/align (lines 270-277)
          let (fill, idx) :=
            if (charAt string 2).any (fun c => c = '<' ∨ c = '^' ∨ c = '>') then
              (⟨(charAt string 1).toList⟩, 2)
            else ((" " : String), 1)
          let (align, idx) :=
            match charAt string idx with
            | some '<' => (AlignDirection.left, idx + 1)
            | some '^' => (AlignDirection.center, idx + 1)
            | some '>' => (AlignDirection.right, idx + 1)
            | _ => (AlignDirection.right, idx)
          -- Force sign (line 279)
          let (fsign, idx) :=
            match charAt string idx with
            | some '+' => (Sign.plus, idx + 1)
            | some '-' => (Sign.minus, idx + 1)
            | _ => (Sign.blank, idx)
          -- Pretty (line 281)
          let (pretty, idx) :=
            if charAt string idx = some '#' then (true, idx + 1) else (false, idx)
          -- Zero padding (line 283)
          let (padz, idx) :=
            if charAt string idx = some '0' then (true, idx + 1) else (false, idx)
          match parseTail strings params i string idx with
          | .error e => some (.error e)
          | .ok (string, idx, width, precision, ftype, d) =>
            match formatParam param ⟨fill, align, fsign, pretty, padz, width, precision, ftype⟩
                debugColors with
            | .error e => some (.error e)
            | .ok (formatted, _) =>
              buildLoop strings params debugColors fuel gas (i + d + 1)
                (out ++ [formatted ++ ⟨string.drop idx⟩])
      else
        -- No specifier (lines 255-258)
        match param.toStr with
        | .error e => some (.error e)
        | .ok ps => buildLoop strings params debugColors fuel gas (i + 1) (out ++ [ps ++ ⟨string⟩])
  else some (.ok out)

/-- `buildString` (lines 232-343): walk the template, render each slot, and
join the pieces. -/
def buildString (fuel : Nat) (strings : List String) (params : List JSVal)
    (debugColors : Bool) : Option (Except JsException String) :=
  (buildLoop strings params debugColors fuel strings.length 1 [strings.headD ""]).map
    (Except.map String.join)

/-! ## Theorems

### Back-reference resolution (claims C1 and C2) -/

/-- Unfolding of one iteration of the reference-resolution loop on a
reference whose payload is a number. -/
theorem resolveRef_ref_num (params : List JSVal) (slot fuel : Nat) (x : JSNum) :
    resolveRef params slot fuel (.paramRef (.num x)) =
      if x.val.blt (JsRat.ofNat 0) = true ∨ (JsRat.ofNat params.length).ble x.val = true then
        some (.error (.invalidReference slot))
      else if x.val.beq (JsRat.ofNat slot) = true then
        some (.error (.selfReference slot))
      else
        match fuel with
        | 0 => none
        | f + 1 => resolveRef params slot f (jsIndex params x.val) := by
  cases fuel <;> rfl

/-- A parameter list whose reference chains cycle among slots 1 and 2
without ever revisiting slot 0: slot 0 → 1, slot 1 → 2, slot 2 → 1. -/
def cycleParams : List JSVal :=
  [.paramRef (.num (JSNum.ofNat 1)), .paramRef (.num (JSNum.ofNat 2)),
   .paramRef (.num (JSNum.ofNat 1))]

/-- Resolving slot 0 of `cycleParams` consumes any amount of fuel without
producing a value or an error: the source loop never terminates. -/
theorem cycle_resolve_none : ∀ fuel : Nat,
    resolveRef cycleParams 0 fuel (.paramRef (.num (JSNum.ofNat 1))) = none ∧
    resolveRef cycleParams 0 fuel (.paramRef (.num (JSNum.ofNat 2))) = none := by
  intro fuel
  induction fuel with
  | zero => exact ⟨rfl, rfl⟩
  | succ f ih =>
    refine ⟨?_, ?_⟩
    · rw [resolveRef_ref_num]
      rw [if_neg (by decide), if_neg (by decide)]
      rw [show jsIndex cycleParams (JSNum.ofNat 1).val = .paramRef (.num (JSNum.ofNat 2))
            from by decide]
      exact ih.2
    · rw [resolveRef_ref_num]
      rw [if_neg (by decide), if_neg (by decide)]
      rw [show jsIndex cycleParams (JSNum.ofNat 2).val = .paramRef (.num (JSNum.ofNat 1))
            from by decide]
      exact ih.1

/-- A render whose first slot's reference chain exhausts its fuel produces
no result at all. -/
theorem buildLoop_resolve_none (strings : List String) (params : List JSVal) (dc : Bool)
    (fuel gas i : Nat) (out : List String)
    (hi : i < strings.length)
    (hr : resolveRef params (i - 1) fuel (params.getD (i - 1) .undef) = none) :
    buildLoop strings params dc fuel (gas + 1) i out = none := by
  unfold buildLoop
  rw [if_pos hi, hr]

/-- Claim C1: value resolution does NOT always terminate.  On the template
`` rs`${rs.ref(1)} ${rs.ref(2)} ${rs.ref(1)} ` `` — a reference cycle among
slots 1 and 2 that never revisits the originating slot 0 — the render
produces no value and no error however much fuel the resolution loop is
given: the source's `while` loop runs forever.  There is no visited-set
check and no `ReferenceCycle` error anywhere in the code, so the claimed
defence does not exist; the spec itself flags this as a defect to fix
(§5, §9). -/
theorem buildString_cycle_diverges (fuel : Nat) (dc : Bool) :
    buildString fuel ["", " ", " ", ""] cycleParams dc = none := by
  have h := (cycle_resolve_none fuel).1
  have hb := buildLoop_resolve_none ["", " ", " ", ""] cycleParams dc fuel 3 1 [""]
    (by decide) (by exact h)
  show (buildLoop ["", " ", " ", ""] cycleParams dc fuel
      (List.length ["", " ", " ", ""]) 1 [""]).map (Except.map String.join) = none
  rw [show List.length ["", " ", " ", ""] = 3 + 1 from rfl, hb]
  rfl

theorem JSNum.ofInt_val (m : Int) :
    (JSNum.ofInt m).val.num = m ∧ (JSNum.ofInt m).val.den = 1 := by
  refine ⟨?_, rfl⟩
  show (if decide (m < 0) = true then (-1 : Int) else 1) * ((m.natAbs : Int) * 1 + 0 * 1) = m
  rcases lt_or_ge m 0 with h | h
  · rw [if_pos (by simpa using h)]
    omega
  · rw [if_neg (by simpa using not_lt.mpr h)]
    omega

theorem JSNum.ofNat_val (n : Nat) :
    (JSNum.ofNat n).val.num = n ∧ (JSNum.ofNat n).val.den = 1 :=
  ⟨by show (1 : Int) * ((n : Int) * 1 + 0 * 1) = n; omega, rfl⟩

/-- Claim C2 (amended): for a slot at index `i`, a back-reference whose
payload is not a number — or is a number outside `[0, slotCount)` — fails
with `InvalidReference`; a number equal to `i` (and inside the range) fails
with `SelfReference`; and an integer `j` in range with `j ≠ i` resolves
exactly as if the slot held slot `j`'s raw value.  (The original claim's
"not an integer in `[0, slotCount)`" is too strong: a non-integral number
inside the range passes the source's `typeof`/range checks and indexes the
array off-key instead — see the counterexample.) -/
theorem resolveRef_backreference_contract (params : List JSVal) (i f : Nat) :
    (∀ r : JSVal, r.typeof ≠ .number →
      resolveRef params i f (.paramRef r) = some (.error (.invalidReference i))) ∧
    (∀ x : JSNum, (x.val.num < 0 ∨ (params.length : Int) * x.val.den ≤ x.val.num) →
      resolveRef params i f (.paramRef (.num x)) =
        some (.error (.invalidReference i))) ∧
    ((i : Int) < params.length →
      resolveRef params i f (.paramRef (.num (JSNum.ofInt i))) =
        some (.error (.selfReference i))) ∧
    (∀ j : Nat, j < params.length → j ≠ i →
      resolveRef params i (f + 1) (.paramRef (.num (JSNum.ofNat j))) =
        resolveRef params i f (params.getD j .undef)) := by
  refine ⟨?_, ?_, ?_, ?_⟩
  · intro r hr
    cases r <;> cases f <;> first
      | rfl
      | exact absurd rfl hr
  · intro x hx
    rw [resolveRef_ref_num, if_pos ?_]
    simp only [JsRat.blt, JsRat.ble, JsRat.ofNat, decide_eq_true_eq, mul_one,
      Nat.cast_zero, zero_mul]
    exact hx
  · intro hi
    obtain ⟨hn, hd⟩ := JSNum.ofInt_val (i : Int)
    rw [resolveRef_ref_num, if_neg ?_, if_pos ?_]
    · simp only [JsRat.beq, JsRat.ofNat, hn, hd, decide_eq_true_eq]
    · simp only [JsRat.blt, JsRat.ble, JsRat.ofNat, hn, hd, decide_eq_true_eq]
      omega
  · intro j hj hne
    obtain ⟨hn, hd⟩ := JSNum.ofNat_val j
    rw [resolveRef_ref_num, if_neg ?_, if_neg ?_]
    · have hidx : jsIndex params (JSNum.ofNat j).val = params.getD j .undef := by
        unfold jsIndex
        rw [if_pos ?_]
        · rw [hn, hd, Int.ediv_one]
          congr 1
        · refine ⟨by rw [hn]; positivity, by rw [hn, hd]; exact Int.emod_one _, ?_⟩
          rw [hn, hd, Int.ediv_one]
          exact_mod_cast hj
      rw [hidx]
    · simp only [JsRat.beq, JsRat.ofNat, hn, hd, decide_eq_true_eq]
      omega
    · simp only [JsRat.blt, JsRat.ble, JsRat.ofNat, hn, hd, decide_eq_true_eq]
      omega

/-- Witness for C2's amended theorem at concrete inputs: a string payload
and out-of-range indices — the integer `5` as well as the non-integral
`-0.5` and `3.5` — fail with `InvalidReference`, a self-index fails with
`SelfReference`, and an in-range reference steps to the referenced slot's
raw value. -/
theorem resolveRef_backreference_contract_witness :
    resolveRef [.str "x", .bigint 7, .str "y"] 0 5 (.paramRef (.str "q")) =
        some (.error (.invalidReference 0)) ∧
    resolveRef [.str "x", .bigint 7, .str "y"] 0 5 (.paramRef (.num (JSNum.ofInt 5))) =
        some (.error (.invalidReference 0)) ∧
    resolveRef [.str "x", .bigint 7, .str "y"] 0 5 (.paramRef (.num ⟨true, 0, [5]⟩)) =
        some (.error (.invalidReference 0)) ∧
    resolveRef [.str "x", .bigint 7, .str "y"] 0 5 (.paramRef (.num ⟨false, 3, [5]⟩)) =
        some (.error (.invalidReference 0)) ∧
    resolveRef [.str "x", .bigint 7, .str "y"] 1 5 (.paramRef (.num (JSNum.ofInt 1))) =
        some (.error (.selfReference 1)) ∧
    resolveRef [.str "x", .bigint 7, .str "y"] 0 6 (.paramRef (.num (JSNum.ofNat 1))) =
        resolveRef [.str "x", .bigint 7, .str "y"] 0 5
          ([JSVal.str "x", .bigint 7, .str "y"].getD 1 .undef) :=
  ⟨(resolveRef_backreference_contract [.str "x", .bigint 7, .str "y"] 0 5).1
      (.str "q") (by decide),
   (resolveRef_backreference_contract [.str "x", .bigint 7, .str "y"] 0 5).2.1
      (JSNum.ofInt 5) (by decide),
   (resolveRef_backreference_contract [.str "x", .bigint 7, .str "y"] 0 5).2.1
      ⟨true, 0, [5]⟩ (by decide),
   (resolveRef_backreference_contract [.str "x", .bigint 7, .str "y"] 0 5).2.1
      ⟨false, 3, [5]⟩ (by decide),
   (resolveRef_backreference_contract [.str "x", .bigint 7, .str "y"] 1 5).2.2.1
      (by norm_num),
   (resolveRef_backreference_contract [.str "x", .bigint 7, .str "y"] 0 5).2.2.2
      1 (by norm_num) (by norm_num)⟩

/-- Counterexample to C2 as stated: `j = 0.5` is not an integer in
`[0, slotCount)`, yet the render does not fail with `InvalidReference` — the
reference passes the `typeof`/range checks, `params[0.5]` is `undefined`,
and stringifying it throws a `TypeError` instead. -/
theorem resolveRef_noninteger_reference_cex :
    buildString 5 ["", "", ""] [.paramRef (.num ⟨false, 0, [5]⟩), .str "x"] false =
        some (.error .typeError) ∧
    JsException.typeError ≠ .invalidReference 0 :=
  ⟨rfl, by decide⟩

/-! ### Scientific notation (claim C3) -/

/-- Claim C3: scientific-notation formatting is broken for the lowercase
variant.  For every number or bigint value, a specifier with type `e`
(`sciLower`) makes `formatParam` throw a `TypeError` instead of producing a
mantissa-and-exponent string: line 383 calls `param.toLowercase()`, which is
not a `String` method (a typo for `toLowerCase`), after the conversion
succeeded.  The uppercase variant `E` is unaffected (it returns the
`toLocaleString` scientific form, whose exponent marker is an uppercase
`E` — see `JSNum.toSciString`). -/
theorem formatParam_sciLower_throws (v : JSVal) (format : FormatSpecifier) (dc : Bool)
    (hv : v.typeof = .number ∨ v.typeof = .bigint) (ht : format.type = .sciLower) :
    formatParam v format dc = .error .typeError := by
  obtain ⟨fill, align, fs, pr, pz, w, p, t⟩ := format
  cases ht
  cases v with
  | num x => rfl
  | bigint n => rfl
  | _ => rcases hv with h | h <;> exact absurd h (by simp [JSVal.typeof])

/-- Witness for C3 at concrete inputs: both the number `5` and the bigint
`5n` throw when formatted with type `e`. -/
theorem formatParam_sciLower_throws_witness :
    formatParam (.num (JSNum.ofNat 5))
        ⟨" ", .right, .blank, false, false, JsRat.ofNat 0, JsRat.ofInt (-1), .sciLower⟩ false
      = .error .typeError ∧
    formatParam (.bigint 5)
        ⟨" ", .right, .blank, false, false, JsRat.ofNat 0, JsRat.ofInt (-1), .sciLower⟩ false
      = .error .typeError :=
  ⟨formatParam_sciLower_throws (.num (JSNum.ofNat 5)) _ false (Or.inl rfl) rfl,
   formatParam_sciLower_throws (.bigint 5) _ false (Or.inr rfl) rfl⟩

/-! ### Specifier mutation by `formatParam` (claim C10) -/

/-- On every successfully converted value, the type-conversion phase hands
back the caller's specifier unchanged unless the type is ordinal and the
value is numeric. -/
theorem typeStep_preserves_format (v : JSVal) (format : FormatSpecifier) (dc : Bool)
    (h : (format.type ≠ .ordinalLower ∧ format.type ≠ .ordinalUpper) ∨
      (v.typeof ≠ .number ∧ v.typeof ≠ .bigint)) :
    ∀ s pt tl f1, typeStep v format dc = .ok (s, pt, tl, f1) → f1 = format := by
  obtain ⟨fill, align, fs, pr, pz, w, p, t⟩ := format
  cases t <;> cases v <;> intro s pt tl f1 heq <;>
    first
      | (rcases h with ⟨h1, h2⟩ | ⟨h1, h2⟩ <;>
          first
            | exact absurd rfl h1
            | exact absurd rfl h2)
      | (cases heq <;> rfl)
      | cases heq

/-- Claim C10 (amended): `formatParam` mutates the caller's specifier
exactly when the type code is ordinal (`n`/`N`) AND the value is a number or
bigint — then `pad_zeroes` becomes `false` and `precision` becomes `-1`; in
every other case that returns, the specifier's fields are all unchanged.
(The original claim's "when the specifier's type is ordinal" is too broad:
a non-numeric value takes the ordinal branch's early `toString` exit before
the mutation — see the counterexample.) -/
theorem formatParam_mutates_ordinal_only (v : JSVal) (format : FormatSpecifier) (dc : Bool) :
    ((format.type = .ordinalLower ∨ format.type = .ordinalUpper) →
      (v.typeof = .number ∨ v.typeof = .bigint) →
      ∃ s, formatParam v format dc =
        .ok (s, { format with pad_zeroes := false, precision := JsRat.ofInt (-1) })) ∧
    (((format.type ≠ .ordinalLower ∧ format.type ≠ .ordinalUpper) ∨
        (v.typeof ≠ .number ∧ v.typeof ≠ .bigint)) →
      ∀ s f2, formatParam v format dc = .ok (s, f2) → f2 = format) := by
  constructor
  · intro ht hv
    obtain ⟨fill, align, fs, pr, pz, w, p, t⟩ := format
    rcases ht with h | h <;> cases h <;> cases v <;>
      first
        | exact ⟨_, rfl⟩
        | (rcases hv with h | h <;> exact absurd h (by simp [JSVal.typeof]))
  · intro h s f2 heq
    unfold formatParam at heq
    cases hts : typeStep v format dc with
    | error e => rw [hts] at heq; cases heq
    | ok q =>
      obtain ⟨s1, pt, tl, f1⟩ := q
      rw [hts] at heq
      cases heq
      exact typeStep_preserves_format v format dc h _ _ _ _ hts

/-- Witness for C10's amended theorem at concrete inputs: an ordinal-typed
number resets `pad_zeroes`/`precision`, and a plain-typed number leaves the
specifier untouched. -/
theorem formatParam_mutates_ordinal_only_witness :
    (∃ s, formatParam (.num (JSNum.ofNat 3))
        ⟨" ", .right, .blank, false, true, JsRat.ofNat 0, JsRat.ofNat 5, .ordinalLower⟩ false
      = .ok (s, ⟨" ", .right, .blank, false, false, JsRat.ofNat 0, JsRat.ofInt (-1),
          .ordinalLower⟩)) ∧
    (∀ s f2, formatParam (.num (JSNum.ofNat 3))
        ⟨" ", .right, .blank, false, false, JsRat.ofNat 0, JsRat.ofInt (-1), .plain⟩ false
      = .ok (s, f2) →
      f2 = ⟨" ", .right, .blank, false, false, JsRat.ofNat 0, JsRat.ofInt (-1), .plain⟩) :=
  ⟨(formatParam_mutates_ordinal_only (.num (JSNum.ofNat 3)) _ false).1
      (Or.inl rfl) (Or.inl rfl),
   (formatParam_mutates_ordinal_only (.num (JSNum.ofNat 3)) _ false).2
      (Or.inl ⟨by decide, by decide⟩)⟩

/-- Counterexample to C10 as stated: with an ordinal type code but a string
value, `formatParam` returns the specifier with `pad_zeroes` still `true`
and `precision` still `5` — the claimed unconditional mutation does not
happen. -/
theorem formatParam_mutation_cex :
    formatParam (.str "a")
        ⟨" ", .right, .blank, false, true, JsRat.ofNat 0, JsRat.ofNat 5, .ordinalLower⟩ false
      = .ok ("a", ⟨" ", .right, .blank, false, true, JsRat.ofNat 0, JsRat.ofNat 5,
          .ordinalLower⟩) ∧
    true ≠ false :=
  ⟨rfl, by decide⟩

/-! ### Decimal-string structure lemmas (shared by claims C4 and C7) -/


theorem digitChar_big (n : Nat) (h : 16 ≤ n) : Nat.digitChar n = '*' := by
  unfold Nat.digitChar
  repeat rw [if_neg (by omega)]

theorem digitChar_ne_dot (n : Nat) : Nat.digitChar n ≠ '.' := by
  rcases Nat.lt_or_ge n 16 with h | h
  · interval_cases n <;> decide
  · rw [digitChar_big n h]; decide

theorem digitChar_ne_dash (n : Nat) : Nat.digitChar n ≠ '-' := by
  rcases Nat.lt_or_ge n 16 with h | h
  · interval_cases n <;> decide
  · rw [digitChar_big n h]; decide

theorem natToBaseStr_chars (b n : Nat) :
    ∀ c ∈ (natToBaseStr b n).data, ∃ d, c = Nat.digitChar d := by
  unfold natToBaseStr
  split
  · intro c hc
    have hc' : c ∈ ['0'] := hc
    have : c = '0' := List.mem_singleton.mp hc'
    exact ⟨0, by rw [this]; rfl⟩
  · intro c hc
    have hc' : c ∈ ((natDigitsLE b n).map Nat.digitChar).reverse := hc
    simp only [List.mem_reverse, List.mem_map] at hc'
    obtain ⟨d, _, rfl⟩ := hc'
    exact ⟨d, rfl⟩

theorem string_data_append (s t : String) : (s ++ t).data = s.data ++ t.data := rfl

theorem strRepeat_zero_data (k : Nat) : (strRepeat "0" k).data = List.replicate k '0' := by
  show (List.replicate k ['0']).flatten = List.replicate k '0'
  induction k with
  | zero => rfl
  | succ m ih => simp [List.replicate_succ, ih]

theorem takeWhile_stop {p : Char → Bool} (l r : List Char) (c : Char)
    (hl : ∀ a ∈ l, p a = true) (hc : p c = false) :
    (l ++ c :: r).takeWhile p = l ∧ (l ++ c :: r).dropWhile p = c :: r := by
  induction l with
  | nil => simp [List.takeWhile_cons, List.dropWhile_cons, hc]
  | cons a as ih =>
    have hpa : p a = true := hl a (List.mem_cons_self a as)
    have := ih fun a ha => hl a (List.mem_cons_of_mem _ ha)
    simp [List.takeWhile_cons, List.dropWhile_cons, hpa, this.1, this.2]



theorem natToDecStr_no_dot (n : Nat) : ∀ c ∈ (natToDecStr n).data, (c ≠ '.' : Bool) = true := by
  intro c hc
  obtain ⟨d, rfl⟩ := natToBaseStr_chars 10 n c hc
  simpa using digitChar_ne_dot d

theorem JSNum.toString_data (x : JSNum) (hx : ¬(x.neg = true ∧ x.ip = 0 ∧ x.fp = [])) :
    (JSNum.toString x).data =
      ((if x.neg then ['-'] else []) ++ (natToDecStr x.ip).data) ++
        (if x.fp = [] then [] else '.' :: x.fp.map Nat.digitChar) := by
  unfold JSNum.toString
  rw [if_neg hx]
  cases hneg : x.neg <;> rcases hfp : x.fp with _ | ⟨d, ds⟩ <;>
    simp [string_data_append]





theorem precisionStep_shaping (x : JSNum) (tl : Int) (format : FormatSpecifier) (p : Nat)
    (hx : ¬(x.neg = true ∧ x.ip = 0 ∧ x.fp = []))
    (hp : format.precision = JsRat.ofNat p) :
    ∃ tl2, precisionStep x.toString .number tl format =
      ((if x.neg then "-" else "") ++ natToDecStr x.ip ++
        (if p = 0 then ""
         else "." ++ (⟨(x.fp.map Nat.digitChar).take p⟩ ++ strRepeat "0" (p - x.fp.length))),
        tl2) ∧ 0 ≤ tl2 := by
  have hsgn : ∀ c ∈ (if x.neg then ['-'] else []) ++ (natToDecStr x.ip).data,
      (c ≠ '.' : Bool) = true := by
    intro c hc
    rcases List.mem_append.mp hc with h | h
    · cases hneg : x.neg <;> rw [hneg] at h
      · simp at h
      · have : c = '-' := by simpa using h
        subst this
        decide
    · exact natToDecStr_no_dot x.ip c h
  have hpre : x.toString.data.takeWhile (· ≠ '.') =
      (if x.neg then ['-'] else []) ++ (natToDecStr x.ip).data := by
    rw [JSNum.toString_data x hx]
    rcases hfp : x.fp with _ | ⟨d, ds⟩
    · rw [if_pos rfl, List.append_nil]
      exact List.takeWhile_eq_self_iff.mpr hsgn
    · rw [if_neg (show ¬(d :: ds = []) by simp)]
      exact (takeWhile_stop _ _ '.' hsgn (by decide)).1
  have hpost : postDot x.toString.data =
      if x.fp = [] then none else some (x.fp.map Nat.digitChar) := by
    unfold postDot
    rw [JSNum.toString_data x hx]
    rcases hfp : x.fp with _ | ⟨d, ds⟩
    · rw [if_pos rfl, if_pos rfl, List.append_nil]
      rw [List.dropWhile_eq_nil_iff.mpr hsgn]
    · rw [if_neg (show ¬(d :: ds = []) by simp),
        if_neg (show ¬(d :: ds = []) by simp),
        (takeWhile_stop _ _ '.' hsgn (by decide)).2]
      have hfpchars : ∀ c ∈ (d :: ds).map Nat.digitChar, (c ≠ '.' : Bool) = true := by
        intro c hc
        obtain ⟨e, _, rfl⟩ := List.mem_map.mp hc
        simpa using digitChar_ne_dot e
      simp only []
      rw [List.takeWhile_eq_self_iff.mpr hfpchars]
  have hbne : (JsRat.ofNat p).beq (JsRat.ofInt (-1)) = false := by
    simp only [JsRat.beq, JsRat.ofNat, JsRat.ofInt, decide_eq_false_iff_not]
    omega
  unfold precisionStep
  rw [hp, hbne]
  rw [if_pos ⟨rfl, rfl⟩]
  by_cases hp0 : p = 0
  · subst hp0
    rw [if_pos (by decide)]
    refine ⟨((x.toString.data.takeWhile (· ≠ '.')).length : Int), ?_, Int.natCast_nonneg _⟩
    rw [if_pos rfl]
    refine Prod.ext ?_ rfl
    apply String.ext
    show x.toString.data.takeWhile (· ≠ '.') = _
    rw [hpre, string_data_append, string_data_append]
    cases hneg : x.neg <;> simp
  · rw [if_neg (by simp only [JsRat.beq, JsRat.ofNat, decide_eq_true_eq]; omega)]
    refine ⟨(((x.toString.data.takeWhile (· ≠ '.')).length + 1 +
      (((postDot x.toString.data).getD [] ++
        List.replicate (JsRat.ofNat p).trunc.toNat '0').take
          (JsRat.ofNat p).trunc.toNat).length : Nat) : Int), ?_, Int.natCast_nonneg _⟩
    rw [if_neg hp0]
    have htr : (JsRat.ofNat p).trunc.toNat = p := by
      show ((p : Int).tdiv 1).toNat = p
      rw [Int.tdiv_one]
      exact Int.toNat_natCast p
    refine Prod.ext ?_ rfl
    apply String.ext
    show x.toString.data.takeWhile (· ≠ '.') ++ '.' ::
        ((postDot x.toString.data).getD [] ++
          List.replicate (JsRat.ofNat p).trunc.toNat '0').take (JsRat.ofNat p).trunc.toNat = _
    rw [htr, hpre, hpost]
    have hpost2 : ((if x.fp = [] then none else some (x.fp.map Nat.digitChar)).getD [] ++
        List.replicate p '0').take p
        = (x.fp.map Nat.digitChar).take p ++ List.replicate (p - x.fp.length) '0' := by
      rcases hfp : x.fp with _ | ⟨d, ds⟩
      · simp [List.take_replicate]
      · rw [if_neg (show ¬(d :: ds = []) by simp)]
        simp only [Option.getD_some]
        rw [List.take_append_eq_append_take, List.take_replicate]
        have hlen : ((d :: ds).map Nat.digitChar).length = ds.length + 1 := by simp
        rw [hlen]
        simp only [List.length_cons]
        rw [show min (p - (ds.length + 1)) p = p - (ds.length + 1) from by omega]
    rw [hpost2]
    simp only [string_data_append, strRepeat_zero_data, List.append_assoc]
    cases hneg : x.neg <;> rfl



theorem signPadStep_noop (s : String) (tl : Int) (format : FormatSpecifier)
    (hz : format.pad_zeroes = false) (hs : format.force_sign = .blank)
    (htag : radixTag format.type = "") :
    ∃ k : Nat, signPadStep s .number tl format = (s, tl + (k : Int), false) := by
  unfold signPadStep
  rw [if_pos (Or.inl rfl), hz, hs]
  simp only []
  by_cases hstrip : s.data.take 1 = ['-']
  · refine ⟨("-" ++ (if format.pretty then radixTag format.type else "")).length, ?_⟩
    rw [if_pos hstrip]
    rw [if_pos hstrip]
    simp only [Bool.false_eq_true, if_false]
    refine Prod.ext ?_ (Prod.ext rfl rfl)
    show "-" ++ (if format.pretty then radixTag format.type else "") ++ ⟨s.data.drop 1⟩ = s
    rw [htag]
    have : (if format.pretty then "" else "") = "" := by cases format.pretty <;> rfl
    rw [this]
    apply String.ext
    show ('-' :: []) ++ s.data.drop 1 = s.data
    rcases hd : s.data with _ | ⟨c, cs⟩
    · rw [hd] at hstrip; simp [List.take] at hstrip
    · rw [hd] at hstrip
      simp only [List.take_succ_cons, List.take_zero] at hstrip
      have : c = '-' := by simpa using hstrip
      subst this
      simp
  · refine ⟨((if format.pretty then radixTag format.type else "") : String).length, ?_⟩
    rw [if_neg hstrip, if_neg (show ¬(Sign.blank = Sign.plus) by simp),
      if_neg (show ¬(Sign.blank = Sign.minus) by simp)]
    rw [if_neg hstrip]
    simp only [Bool.false_eq_true, if_false]
    refine Prod.ext ?_ (Prod.ext rfl rfl)
    show "" ++ (if format.pretty then radixTag format.type else "") ++ s = s
    rw [htag]
    have : (if format.pretty then "" else "") = "" := by cases format.pretty <;> rfl
    rw [this]
    rfl

theorem alignStep_zero_width (s : String) (tl : Int) (format : FormatSpecifier)
    (hw : format.width = JsRat.ofNat 0) (htl : 0 ≤ tl) (filled : Bool) :
    alignStep s tl format filled = s := by
  unfold alignStep
  rw [if_neg]
  intro ⟨_, hlt⟩
  rw [hw] at hlt
  simp only [JsRat.blt, JsRat.ofInt, JsRat.ofNat, decide_eq_true_eq] at hlt
  omega



/-- Claim C4: precision shaping on numbers.  For every number (given by its
canonical decimal form: sign, integer part, fraction digits) formatted with
a precision `p`: when `p = 0` the fractional part and the decimal point are
removed entirely; when `p > 0` the fraction digits are truncated — not
rounded — to the first `p` and padded with trailing zeros up to exactly `p`
digits.  The specifier here has no width/sign/zero-pad interaction, which
matches the claim's scope (the concrete instances `1.23456789`/precision 3
and `-1`/precision 3 are in the witness). -/
theorem formatParam_precision_shaping (x : JSNum) (p : Nat) (format : FormatSpecifier)
    (dc : Bool)
    (hx : ¬(x.neg = true ∧ x.ip = 0 ∧ x.fp = []))
    (ht : format.type = .plain) (hs : format.force_sign = .blank)
    (hw : format.width = JsRat.ofNat 0) (hz : format.pad_zeroes = false)
    (hp : format.precision = JsRat.ofNat p) :
    formatParam (.num x) format dc =
      .ok ((if x.neg then "-" else "") ++ natToDecStr x.ip ++
        (if p = 0 then ""
         else "." ++ (⟨(x.fp.map Nat.digitChar).take p⟩ ++ strRepeat "0" (p - x.fp.length))),
        format) := by
  have h1 : typeStep (.num x) format dc
      = .ok (x.toString, .number, (x.toString.length : Int), format) := by
    unfold typeStep
    rw [ht]
    rfl
  obtain ⟨tl2, h2, htl2⟩ := precisionStep_shaping x (x.toString.length : Int) format p hx hp
  obtain ⟨k, h3⟩ := signPadStep_noop
    ((if x.neg then "-" else "") ++ natToDecStr x.ip ++
      (if p = 0 then ""
       else "." ++ (⟨(x.fp.map Nat.digitChar).take p⟩ ++ strRepeat "0" (p - x.fp.length))))
    tl2 format hz hs (by rw [ht]; rfl)
  unfold formatParam
  rw [h1]
  simp only [Except.map]
  rw [h2, h3, alignStep_zero_width _ _ _ hw
    (by show 0 ≤ tl2 + (k : Int); have := Int.natCast_nonneg k; omega) _]


/-- Witness for C4 at the spec's concrete examples: `1.23456789` with
precision 3 renders `"1.234"` (truncation, not rounding) and `-1` with
precision 3 renders `"-1.000"` (trailing-zero padding). -/
theorem formatParam_precision_shaping_witness :
    formatParam (.num ⟨false, 1, [2, 3, 4, 5, 6, 7, 8, 9]⟩)
        ⟨" ", .right, .blank, false, false, JsRat.ofNat 0, JsRat.ofNat 3, .plain⟩ false
      = .ok ("1.234",
          ⟨" ", .right, .blank, false, false, JsRat.ofNat 0, JsRat.ofNat 3, .plain⟩) ∧
    formatParam (.num ⟨true, 1, []⟩)
        ⟨" ", .right, .blank, false, false, JsRat.ofNat 0, JsRat.ofNat 3, .plain⟩ false
      = .ok ("-1.000",
          ⟨" ", .right, .blank, false, false, JsRat.ofNat 0, JsRat.ofNat 3, .plain⟩) :=
  ⟨(formatParam_precision_shaping ⟨false, 1, [2, 3, 4, 5, 6, 7, 8, 9]⟩ 3 _ false
      (by simp) rfl rfl rfl rfl rfl).trans (by rfl),
   (formatParam_precision_shaping ⟨true, 1, []⟩ 3 _ false
      (by simp) rfl rfl rfl rfl rfl).trans (by rfl)⟩

/-! ### Zero-pad / alignment exclusivity (claim C5) -/


theorem string_length_append (a b : String) : (a ++ b).length = a.length + b.length := by
  show (a.data ++ b.data).length = a.data.length + b.data.length
  exact List.length_append a.data b.data

theorem strRepeat_zero_length (n : Nat) : (strRepeat "0" n).length = n := by
  show (strRepeat "0" n).data.length = n
  rw [strRepeat_zero_data]
  exact List.length_replicate n '0'

theorem ceil_sub_ofNat (w S : Nat) : ((JsRat.ofNat w).sub (JsRat.ofNat S)).ceil = (w : Int) - S := by
  show -((-((w : Int) * 1 - (S : Int) * 1)).fdiv (1 * 1)) = (w : Int) - (S : Int)
  rw [show ((1 : Int) * 1) = 1 from rfl, Int.fdiv_one]
  omega

/-- Zero-padding on a numeric value: the sign/pad phase returns with the
`filled` flag set and a result at least `width` characters long. -/
theorem signPadStep_filled (s : String) (pt : JsType) (tl : Int) (format : FormatSpecifier)
    (w : Nat) (hpt : pt = .number ∨ pt = .bigint) (hz : format.pad_zeroes = true)
    (hw : format.width = JsRat.ofNat w) :
    ∃ out tl3, signPadStep s pt tl format = (out, tl3, true) ∧ w ≤ out.length := by
  unfold signPadStep
  rw [if_pos hpt, hz, hw]
  simp only [if_true]
  by_cases hstrip : s.data.take 1 = ['-']
  · rw [if_pos hstrip]
    rw [if_pos hstrip]
    refine ⟨_, _, rfl, ?_⟩
    rw [string_length_append, string_length_append, strRepeat_zero_length, ceil_sub_ofNat]
    omega
  · rw [if_neg hstrip]
    rw [if_neg hstrip]
    refine ⟨_, _, rfl, ?_⟩
    rw [string_length_append, string_length_append, strRepeat_zero_length, ceil_sub_ofNat]
    omega

/-- The alignment engine is a no-op once zero-padding has run. -/
theorem alignStep_filled (s : String) (tl : Int) (format : FormatSpecifier) :
    alignStep s tl format true = s := by
  unfold alignStep
  rw [if_neg]
  simp

/-- The type-conversion phase reports the value's own runtime type unless
the debug type overrode it. -/
theorem typeStep_pt (v : JSVal) (format : FormatSpecifier) (dc : Bool)
    (hd : format.type ≠ .debug) :
    ∀ s pt tl f1, typeStep v format dc = .ok (s, pt, tl, f1) → pt = v.typeof := by
  obtain ⟨fill, align, fs, pr, pz, w, p, t⟩ := format
  cases t <;> cases v <;> intro s pt tl f1 heq <;>
    first
      | exact absurd rfl hd
      | (cases heq <;> rfl)
      | cases heq



/-- Claim C5 (amended): when `pad_zeroes` is set and the value is a number
or bigint whose type code is not ordinal and not debug, the alignment engine
is not applied — the render equals the pipeline with the alignment stage
removed — and the zero-padded result (sign + radix tag + `'0'`-padded
digits) is at least `width` characters long.  (The original claim's "for
every value" fails: for a string value the zero-pad branch is skipped, the
`filled` flag stays `false`, and the alignment engine runs — see the
counterexample; an ordinal type code also resets `pad_zeroes` before the
padding stage.) -/
theorem formatParam_zero_pad_excludes_align (v : JSVal) (format : FormatSpecifier)
    (dc : Bool) (w : Nat)
    (hv : v.typeof = .number ∨ v.typeof = .bigint)
    (hz : format.pad_zeroes = true)
    (hw : format.width = JsRat.ofNat w)
    (ht : format.type ≠ .ordinalLower ∧ format.type ≠ .ordinalUpper ∧ format.type ≠ .debug) :
    formatParam v format dc = formatParamNoAlign v format dc ∧
    (∀ s f2, formatParam v format dc = .ok (s, f2) → w ≤ s.length) := by
  cases hts : typeStep v format dc with
  | error e =>
    constructor
    · unfold formatParam formatParamNoAlign
      rw [hts]
      rfl
    · intro s f2 h
      unfold formatParam at h
      rw [hts] at h
      cases h
  | ok q =>
    obtain ⟨s1, pt, tl1, f1⟩ := q
    have hf1 : f1 = format :=
      typeStep_preserves_format v format dc (Or.inl ⟨ht.1, ht.2.1⟩) _ _ _ _ hts
    have hpt : pt = v.typeof := typeStep_pt v format dc ht.2.2 _ _ _ _ hts
    rw [hf1] at hts
    rcases hpc : precisionStep s1 pt tl1 format with ⟨s2, tl2⟩
    obtain ⟨out, tl3, hsp, hlen⟩ :=
      signPadStep_filled s2 pt tl2 format w (by rw [hpt]; exact hv) hz hw
    have hrun : formatParam v format dc = .ok (out, format) := by
      unfold formatParam
      rw [hts]
      simp only [Except.map]
      rw [hpc, hsp, alignStep_filled]
    constructor
    · rw [hrun]
      unfold formatParamNoAlign
      rw [hts]
      simp only [Except.map]
      rw [hpc, hsp]
    · intro s f2 h
      rw [hrun] at h
      cases h
      exact hlen



/-- Witness for C5 at the spec's concrete example: value `15`, width 7,
zero-pad, pretty, hexLower renders `"0x0000f"` (radix tag plus padded
digits reach exactly width 7). -/
theorem formatParam_zero_pad_excludes_align_witness :
    formatParam (.num ⟨false, 15, []⟩)
        ⟨" ", .right, .blank, true, true, JsRat.ofNat 7, JsRat.ofInt (-1), .hexLower⟩ false
      = .ok ("0x0000f",
          ⟨" ", .right, .blank, true, true, JsRat.ofNat 7, JsRat.ofInt (-1), .hexLower⟩) ∧
    7 ≤ ("0x0000f" : String).length := by
  have h := formatParam_zero_pad_excludes_align (.num ⟨false, 15, []⟩)
    ⟨" ", .right, .blank, true, true, JsRat.ofNat 7, JsRat.ofInt (-1), .hexLower⟩ false 7
    (Or.inl rfl) rfl rfl ⟨by decide, by decide, by decide⟩
  have h1 : formatParam (.num ⟨false, 15, []⟩)
      ⟨" ", .right, .blank, true, true, JsRat.ofNat 7, JsRat.ofInt (-1), .hexLower⟩ false
      = .ok ("0x0000f",
        ⟨" ", .right, .blank, true, true, JsRat.ofNat 7, JsRat.ofInt (-1), .hexLower⟩) :=
    h.1.trans (by rfl)
  exact ⟨h1, h.2 _ _ h1⟩

/-- Counterexample to C5 as stated: a string value with `zeroPad` set and
width 3 is still processed by the alignment engine (default right-align,
space fill), rendering `"  a"` rather than an unaligned `"a"`. -/
theorem formatParam_zero_pad_string_cex :
    formatParam (.str "a")
        ⟨" ", .right, .blank, false, true, JsRat.ofNat 3, JsRat.ofInt (-1), .plain⟩ false
      = .ok ("  a",
          ⟨" ", .right, .blank, false, true, JsRat.ofNat 3, JsRat.ofInt (-1), .plain⟩) ∧
    ("  a" : String) ≠ "a" :=
  ⟨rfl, by decide⟩


/-! ### Center alignment (claim C8) -/


/-- The two center-alignment repeat counts computed by the source's JS
float arithmetic (`diff - diff / 2` on the left, `diff / 2 + diff % 2` on
the right, each truncated by `repeat`) equal `⌊deficit / 2⌋` and
`deficit - ⌊deficit / 2⌋`. -/
theorem center_counts (w L : Nat) (h : L < w) :
    ((((JsRat.ofNat w).sub (JsRat.ofInt (L : Int))).sub
        (((JsRat.ofNat w).sub (JsRat.ofInt (L : Int))).div (JsRat.ofNat 2))).trunc.toNat
      = (w - L) / 2) ∧
    (((((JsRat.ofNat w).sub (JsRat.ofInt (L : Int))).div (JsRat.ofNat 2)).add
        (jsMod ((JsRat.ofNat w).sub (JsRat.ofInt (L : Int))) (JsRat.ofNat 2))).trunc.toNat
      = (w - L) - (w - L) / 2) := by
  simp only [JsRat.ofNat, JsRat.ofInt, JsRat.sub, JsRat.div, JsRat.add, JsRat.mul,
    JsRat.trunc, jsMod]
  norm_num
  constructor
  · rw [Int.tdiv_eq_ediv (by omega) (by omega)]
    omega
  · have hq : ((w : Int) - L).tdiv 2 = ((w : Int) - L) / 2 :=
      Int.tdiv_eq_ediv (by omega) (by omega)
    have hd : (w : Int) - L = ((w - L : Nat) : Int) := by omega
    rw [hq, Int.tdiv_eq_ediv (by omega) (by omega), hd]
    omega



/-- Claim C8: center-alignment tie-break.  For every string value shorter
than the width, with alignment `^`, the left side receives
`⌊deficit / 2⌋` copies of the fill string and the right side the remainder
`deficit - ⌊deficit / 2⌋` (the extra fill character of an odd deficit goes
to the right). -/
theorem formatParam_center_align (s : String) (format : FormatSpecifier) (dc : Bool) (w : Nat)
    (halign : format.align = .center) (ht : format.type = .plain)
    (hw : format.width = JsRat.ofNat w) (hlen : s.length < w) :
    formatParam (.str s) format dc =
      .ok (strRepeat format.fill ((w - s.length) / 2) ++ s ++
        strRepeat format.fill ((w - s.length) - (w - s.length) / 2), format) := by
  have h1 : typeStep (.str s) format dc = .ok (s, .string, (s.length : Int), format) := by
    unfold typeStep
    rw [ht]
    rfl
  have hpc : precisionStep s .string (s.length : Int) format = (s, (s.length : Int)) := by
    unfold precisionStep
    rw [if_neg (by simp)]
  have hsp : signPadStep s .string (s.length : Int) format = (s, (s.length : Int), false) := by
    unfold signPadStep
    rw [if_neg (by simp)]
  obtain ⟨hA, hB⟩ := center_counts w s.length hlen
  unfold formatParam
  rw [h1]
  simp only [Except.map]
  rw [hpc, hsp]
  unfold alignStep
  rw [hw, halign]
  rw [if_pos ⟨by simp, by
    simp only [JsRat.blt, JsRat.ofInt, JsRat.ofNat, decide_eq_true_eq]
    omega⟩]
  simp only []
  unfold jsRepeat
  rw [hA, hB]



/-- Witness for C8 at the spec's concrete examples: `"aaa"` at width 5
renders `" aaa "`, and an odd deficit (`"aa"` at width 5) puts the extra
space on the right: `" aa  "`. -/
theorem formatParam_center_align_witness :
    formatParam (.str "aaa")
        ⟨" ", .center, .blank, false, false, JsRat.ofNat 5, JsRat.ofInt (-1), .plain⟩ false
      = .ok (" aaa ",
          ⟨" ", .center, .blank, false, false, JsRat.ofNat 5, JsRat.ofInt (-1), .plain⟩) ∧
    formatParam (.str "aa")
        ⟨" ", .center, .blank, false, false, JsRat.ofNat 5, JsRat.ofInt (-1), .plain⟩ false
      = .ok (" aa  ",
          ⟨" ", .center, .blank, false, false, JsRat.ofNat 5, JsRat.ofInt (-1), .plain⟩) :=
  ⟨(formatParam_center_align "aaa" _ false 5 rfl rfl rfl (by decide)).trans (by rfl),
   (formatParam_center_align "aa" _ false 5 rfl rfl rfl (by decide)).trans (by rfl)⟩


theorem digitsAux_lt (b : Nat) (hb : 0 < b) :
    ∀ f n d, d ∈ digitsAux b f n → d < b := by
  intro f
  induction f with
  | zero => intro n d hd; cases hd
  | succ f ih =>
    intro n d hd
    match n with
    | 0 => cases hd
    | n + 1 =>
      rcases List.mem_cons.mp hd with h | h
      · rw [h]; exact Nat.mod_lt _ hb
      · exact ih _ _ h

theorem natDigitsLE_lt (b n : Nat) (hb : 0 < b) : ∀ d ∈ natDigitsLE b n, d < b :=
  fun d hd => digitsAux_lt b hb n n d hd

theorem lastTwoStr_append_pair (l : List Char) (u v : Char) :
    lastTwoStr ⟨l ++ [u, v]⟩ = ⟨[u, v]⟩ := by
  unfold lastTwoStr
  congr 1
  show (l ++ [u, v]).drop ((l ++ [u, v]).length - 2) = [u, v]
  have h : (l ++ [u, v]).length - 2 = l.length := by
    rw [List.length_append]
    simp
  rw [h, List.drop_left]

theorem ordSuffixCode_aux (neg : Bool) (a : Nat) :
    ordSuffixCode ⟨(if neg then ['-'] else []) ++ (natToDecStr a).data⟩ =
      (if a % 100 = 11 ∨ a % 100 = 12 ∨ a % 100 = 13 then "th"
       else if a % 10 = 1 then "st"
       else if a % 10 = 2 then "nd"
       else if a % 10 = 3 then "rd"
       else "th") := by
  rcases Nat.lt_or_ge a 10 with ha | ha
  · interval_cases a <;> cases neg <;> decide
  · have hdata : (natToDecStr a).data =
        ((natDigitsLE 10 (a / 100)).map Nat.digitChar).reverse ++
          [Nat.digitChar (a / 10 % 10), Nat.digitChar (a % 10)] := by
      unfold natToDecStr natToBaseStr
      rw [if_neg (by omega)]
      rw [natDigitsLE_pos 10 a (by norm_num) (by omega),
        natDigitsLE_pos 10 (a / 10) (by norm_num) (by omega)]
      rw [Nat.div_div_eq_div_mul]
      simp [List.append_assoc]
    have harg : (if neg then ['-'] else []) ++ (natToDecStr a).data =
        ((if neg then ['-'] else []) ++ ((natDigitsLE 10 (a / 100)).map Nat.digitChar).reverse) ++
          [Nat.digitChar (a / 10 % 10), Nat.digitChar (a % 10)] := by
      rw [hdata, List.append_assoc]
    have hlast : lastTwoStr ⟨(if neg then ['-'] else []) ++ (natToDecStr a).data⟩ =
        ⟨[Nat.digitChar (a / 10 % 10), Nat.digitChar (a % 10)]⟩ := by
      rw [show (⟨(if neg then ['-'] else []) ++ (natToDecStr a).data⟩ : String)
          = ⟨((if neg then ['-'] else []) ++ ((natDigitsLE 10 (a / 100)).map Nat.digitChar).reverse) ++
              [Nat.digitChar (a / 10 % 10), Nat.digitChar (a % 10)]⟩ from by rw [← harg]]
      exact lastTwoStr_append_pair _ _ _
    unfold ordSuffixCode
    simp only []
    rw [hlast]
    have hd1 : a / 10 % 10 < 10 := Nat.mod_lt _ (by norm_num)
    have hd0 : a % 10 < 10 := Nat.mod_lt _ (by norm_num)
    have h100 : a % 100 = 10 * (a / 10 % 10) + a % 10 := by omega
    rw [h100]
    set d1 := a / 10 % 10 with hdef1
    set d0 := a % 10 with hdef0
    clear_value d1 d0
    interval_cases d1 <;> interval_cases d0 <;> decide

theorem ordSuffixCode_eq_spec (m : Int) : ordSuffixCode (intToDecStr m) = ordSuffixSpec m := by
  by_cases hm : m < 0
  · have h : intToDecStr m = ⟨(if true then ['-'] else []) ++ (natToDecStr m.natAbs).data⟩ := by
      apply String.ext
      show ((if m < 0 then "-" else "") ++ natToDecStr m.natAbs).data = _
      rw [if_pos hm]
      rfl
    rw [h, ordSuffixCode_aux true m.natAbs]
    rfl
  · have h : intToDecStr m = ⟨(if false then ['-'] else []) ++ (natToDecStr m.natAbs).data⟩ := by
      apply String.ext
      show ((if m < 0 then "-" else "") ++ natToDecStr m.natAbs).data = _
      rw [if_neg hm]
      rfl
    rw [h, ordSuffixCode_aux false m.natAbs]
    rfl

theorem map_of_fixpoints {f : Char → Char} :
    ∀ l : List Char, (∀ c ∈ l, f c = c) → l.map f = l
  | [], _ => rfl
  | c :: cs, h => by
    rw [List.map_cons, h c (List.mem_cons_self c cs),
      map_of_fixpoints cs fun e he => h e (List.mem_cons_of_mem c he)]

theorem toUpper_fixes_decimal (d : Nat) (hd : d < 10) :
    (Nat.digitChar d).toUpper = Nat.digitChar d := by
  interval_cases d <;> decide

theorem jsToUpper_append (a b : String) : jsToUpper (a ++ b) = jsToUpper a ++ jsToUpper b := by
  apply String.ext
  show (a.data ++ b.data).map Char.toUpper = a.data.map Char.toUpper ++ b.data.map Char.toUpper
  exact List.map_append Char.toUpper a.data b.data

theorem jsToUpper_intToDecStr (m : Int) : jsToUpper (intToDecStr m) = intToDecStr m := by
  apply String.ext
  show (intToDecStr m).data.map Char.toUpper = (intToDecStr m).data
  apply map_of_fixpoints
  intro c hc
  have hc' : c ∈ ((if m < 0 then "-" else "") ++ natToDecStr m.natAbs).data := hc
  rw [string_data_append] at hc'
  rcases List.mem_append.mp hc' with h | h
  · by_cases hm : m < 0
    · rw [if_pos hm] at h
      have : c = '-' := by simpa using h
      rw [this]
      rfl
    · rw [if_neg hm] at h
      simp at h
  · unfold natToDecStr natToBaseStr at h
    by_cases h0 : m.natAbs = 0
    · rw [if_pos h0] at h
      have : c = '0' := by simpa using h
      rw [this]
      rfl
    · rw [if_neg h0] at h
      have h2 : c ∈ ((natDigitsLE 10 m.natAbs).map Nat.digitChar).reverse := h
      simp only [List.mem_reverse, List.mem_map] at h2
      obtain ⟨d, hd, rfl⟩ := h2
      exact toUpper_fixes_decimal d (natDigitsLE_lt 10 m.natAbs (by norm_num) d hd)

theorem precisionStep_skip_neg1 (s : String) (pt : JsType) (tl : Int) (format : FormatSpecifier)
    (h : format.precision = JsRat.ofInt (-1)) :
    precisionStep s pt tl format = (s, tl) := by
  unfold precisionStep
  rw [if_neg]
  rintro ⟨-, hb⟩
  rw [h] at hb
  simp [JsRat.beq, JsRat.ofInt] at hb

/-- C7: ordinal conversion. For a numeric value with type code 'n' the output is
Math.round(value) rendered in decimal followed by the English ordinal suffix chosen
by the value mod 100 / mod 10 rule ('st'/'nd'/'rd' except for 11/12/13, else 'th');
type code 'N' additionally uppercases the suffix. Proved for specifiers with no
forced sign and zero width, so the suffix step itself is isolated from padding. -/
theorem formatParam_ordinal (x : JSNum) (format : FormatSpecifier) (dc : Bool)
    (hs : format.force_sign = .blank) (hw : format.width = JsRat.ofNat 0) :
    (format.type = .ordinalLower →
      formatParam (.num x) format dc =
        .ok (intToDecStr (jsRound x) ++ ordSuffixSpec (jsRound x),
          { format with pad_zeroes := false, precision := JsRat.ofInt (-1) })) ∧
    (format.type = .ordinalUpper →
      formatParam (.num x) format dc =
        .ok (intToDecStr (jsRound x) ++ jsToUpper (ordSuffixSpec (jsRound x)),
          { format with pad_zeroes := false, precision := JsRat.ofInt (-1) })) := by
  obtain ⟨F, A, FS, PR, PZ, W, P, T⟩ := format
  cases hs
  cases hw
  constructor
  · intro ht
    cases ht
    have h1 : typeStep (.num x) ⟨F, A, .blank, PR, PZ, JsRat.ofNat 0, P, .ordinalLower⟩ dc =
        .ok (intToDecStr (jsRound x) ++ ordSuffixCode (intToDecStr (jsRound x)), .number,
          ((intToDecStr (jsRound x) ++ ordSuffixCode (intToDecStr (jsRound x))).length : Int),
          ⟨F, A, .blank, PR, false, JsRat.ofNat 0, JsRat.ofInt (-1), .ordinalLower⟩) := by
      unfold typeStep
      rfl
    obtain ⟨k, h3⟩ := signPadStep_noop
      (intToDecStr (jsRound x) ++ ordSuffixCode (intToDecStr (jsRound x)))
      ((intToDecStr (jsRound x) ++ ordSuffixCode (intToDecStr (jsRound x))).length : Int)
      ⟨F, A, .blank, PR, false, JsRat.ofNat 0, JsRat.ofInt (-1), .ordinalLower⟩
      rfl rfl rfl
    simp only [JsRat.ofNat] at h1 h3
    unfold formatParam
    rw [h1]
    simp only [Except.map]
    rw [precisionStep_skip_neg1 _ _ _ _ rfl]
    rw [h3]
    rw [alignStep_zero_width _ _ _ rfl (by have := Int.natCast_nonneg k; positivity) _]
    rw [ordSuffixCode_eq_spec]
  · intro ht
    cases ht
    have h1 : typeStep (.num x) ⟨F, A, .blank, PR, PZ, JsRat.ofNat 0, P, .ordinalUpper⟩ dc =
        .ok (jsToUpper (intToDecStr (jsRound x) ++ ordSuffixCode (intToDecStr (jsRound x))),
          .number,
          ((jsToUpper (intToDecStr (jsRound x) ++
            ordSuffixCode (intToDecStr (jsRound x)))).length : Int),
          ⟨F, A, .blank, PR, false, JsRat.ofNat 0, JsRat.ofInt (-1), .ordinalUpper⟩) := by
      unfold typeStep
      rfl
    obtain ⟨k, h3⟩ := signPadStep_noop
      (jsToUpper (intToDecStr (jsRound x) ++ ordSuffixCode (intToDecStr (jsRound x))))
      ((jsToUpper (intToDecStr (jsRound x) ++
        ordSuffixCode (intToDecStr (jsRound x)))).length : Int)
      ⟨F, A, .blank, PR, false, JsRat.ofNat 0, JsRat.ofInt (-1), .ordinalUpper⟩
      rfl rfl rfl
    simp only [JsRat.ofNat] at h1 h3
    unfold formatParam
    rw [h1]
    simp only [Except.map]
    rw [precisionStep_skip_neg1 _ _ _ _ rfl]
    rw [h3]
    rw [alignStep_zero_width _ _ _ rfl (by have := Int.natCast_nonneg k; positivity) _]
    rw [jsToUpper_append, jsToUpper_intToDecStr, ordSuffixCode_eq_spec]

theorem formatParam_ordinal_witness :
    (let fmt : FormatSpecifier :=
      ⟨" ", .right, .blank, false, false, JsRat.ofNat 0, JsRat.ofInt (-1), .ordinalLower⟩
     let fmt' : FormatSpecifier :=
      ⟨" ", .right, .blank, false, false, JsRat.ofNat 0, JsRat.ofInt (-1), .ordinalLower⟩
     formatParam (.num ⟨false, 1, []⟩) fmt false = .ok ("1st", fmt') ∧
     formatParam (.num ⟨false, 2, []⟩) fmt false = .ok ("2nd", fmt') ∧
     formatParam (.num ⟨false, 3, []⟩) fmt false = .ok ("3rd", fmt') ∧
     formatParam (.num ⟨false, 11, []⟩) fmt false = .ok ("11th", fmt') ∧
     formatParam (.num ⟨false, 12, []⟩) fmt false = .ok ("12th", fmt') ∧
     formatParam (.num ⟨false, 13, []⟩) fmt false = .ok ("13th", fmt') ∧
     formatParam (.num ⟨false, 21, []⟩) fmt false = .ok ("21st", fmt') ∧
     formatParam (.num ⟨false, 1000, []⟩) fmt false = .ok ("1000th", fmt')) ∧
    (let fmtU : FormatSpecifier :=
      ⟨" ", .right, .blank, false, false, JsRat.ofNat 0, JsRat.ofInt (-1), .ordinalUpper⟩
     let fmtU' : FormatSpecifier :=
      ⟨" ", .right, .blank, false, false, JsRat.ofNat 0, JsRat.ofInt (-1), .ordinalUpper⟩
     formatParam (.num ⟨false, 2, []⟩) fmtU false = .ok ("2ND", fmtU')) := by
  refine ⟨⟨?_, ?_, ?_, ?_, ?_, ?_, ?_, ?_⟩, ?_⟩
  · exact ((formatParam_ordinal ⟨false, 1, []⟩ _ false rfl rfl).1 rfl).trans (by rfl)
  · exact ((formatParam_ordinal ⟨false, 2, []⟩ _ false rfl rfl).1 rfl).trans (by rfl)
  · exact ((formatParam_ordinal ⟨false, 3, []⟩ _ false rfl rfl).1 rfl).trans (by rfl)
  · exact ((formatParam_ordinal ⟨false, 11, []⟩ _ false rfl rfl).1 rfl).trans (by rfl)
  · exact ((formatParam_ordinal ⟨false, 12, []⟩ _ false rfl rfl).1 rfl).trans (by rfl)
  · exact ((formatParam_ordinal ⟨false, 13, []⟩ _ false rfl rfl).1 rfl).trans (by rfl)
  · exact ((formatParam_ordinal ⟨false, 21, []⟩ _ false rfl rfl).1 rfl).trans (by rfl)
  · exact ((formatParam_ordinal ⟨false, 1000, []⟩ _ false rfl rfl).1 rfl).trans (by rfl)
  · exact ((formatParam_ordinal ⟨false, 2, []⟩ _ false rfl rfl).2 rfl).trans (by rfl)

theorem resolveRef_nonref (params : List JSVal) (slot fuel : Nat) (v : JSVal)
    (hv : v.isRef = false) :
    resolveRef params slot fuel v = some (.ok v) := by
  cases v with
  | paramRef r => simp [JSVal.isRef] at hv
  | str s => cases fuel <;> rfl
  | num x => cases fuel <;> rfl
  | bigint n => cases fuel <;> rfl
  | obj => cases fuel <;> rfl
  | undef => cases fuel <;> rfl

/-- C9: specifier-introducer escaping.  When the segment after a slot starts
with the doubled introducer "::" and the slot's value is not a back-reference,
the loop body appends the value's natural string form (`toString`, no
formatting) followed by the segment with exactly one leading ':' removed —
so one literal ':' is emitted and one is consumed — and moves to the next
slot. -/
theorem buildLoop_escaped_introducer (strings : List String) (params : List JSVal)
    (dc : Bool) (fuel gas i : Nat) (out : List String) (r : List Char) (vs : String)
    (hi : i < strings.length)
    (hs : strings.getD i "" = ⟨':' :: ':' :: r⟩)
    (hv : (params.getD (i - 1) .undef).isRef = false)
    (hts : (params.getD (i - 1) .undef).toStr = .ok vs) :
    buildLoop strings params dc fuel (gas + 1) i out =
      buildLoop strings params dc fuel gas (i + 1) (out ++ [vs ++ (⟨':' :: r⟩ : String)]) := by
  have hres := resolveRef_nonref params (i - 1) fuel _ hv
  conv_lhs => unfold buildLoop
  rw [if_pos hi]
  simp only [hs]
  rw [hres]
  dsimp only
  rw [if_pos (show charAt (':' :: ':' :: r) 0 = some ':' from rfl)]
  rw [if_pos (show charAt (':' :: ':' :: r) 1 = some ':' from rfl)]
  rw [hts]
  rfl

theorem buildLoop_escaped_introducer_witness :
    buildLoop ["", "::x"] [.num ⟨false, 7, []⟩] false 1 (1 + 1) 1 [""] =
      buildLoop ["", "::x"] [.num ⟨false, 7, []⟩] false 1 1 2
        ([""] ++ ["7" ++ (⟨':' :: ['x']⟩ : String)]) ∧
    buildString 1 ["", "::x"] [.num ⟨false, 7, []⟩] false = some (.ok "7:x") :=
  ⟨buildLoop_escaped_introducer ["", "::x"] [.num ⟨false, 7, []⟩] false 1 1 1 [""]
      ['x'] "7" (by decide) rfl rfl rfl, by rfl⟩

theorem buildLoop_deferred_step (strings : List String) (params : List JSVal) (dc : Bool)
    (fuel gas i : Nat) (out : List String) (v : JSVal)
    (hi : i < strings.length)
    (hs : strings.getD i "" = ":")
    (hgv : params.getD (i - 1) .undef = v)
    (hv : v.isRef = false) :
    buildLoop strings params dc fuel (gas + 1) i out =
      match parseTail strings params i [':'] 1 with
      | .error e => some (.error e)
      | .ok (string, idx, width, precision, ftype, d) =>
        match formatParam v ⟨" ", .right, .blank, false, false, width, precision, ftype⟩ dc with
        | .error e => some (.error e)
        | .ok (formatted, _) =>
          buildLoop strings params dc fuel gas (i + d + 1)
            (out ++ [formatted ++ (⟨string.drop idx⟩ : String)]) := by
  have hres : resolveRef params (i - 1) fuel (params.getD (i - 1) .undef) = some (.ok v) := by
    rw [hgv]; exact resolveRef_nonref params (i - 1) fuel v hv
  conv_lhs => unfold buildLoop
  rw [if_pos hi]
  simp only [hs]
  rw [hres]
  dsimp only
  rfl

/-- C6: deferred width.  On a template whose middle slot specifier is exactly
":" (no inline width digits, specifier text ends at the width position), the
next slot is consumed as the width: when it holds a number `x`, the render is
the slot value formatted with width `x` followed by the fused trailing literal
" tail" — the consumed slot is never re-emitted; when it holds a non-number the
render fails with InvalidWidth.  The typeof check accepts any number, integral
or not, so the spec's "must be an integer" is too strong (see the
counterexample: width 1.5 renders without error). -/
theorem buildString_deferred_width (v w : JSVal) (x : JSNum) (dc : Bool) (fuel : Nat)
    (hv : v.isRef = false) :
    (buildString fuel ["", ":", " tail"] [v, .num x] dc =
      some ((formatParam v ⟨" ", .right, .blank, false, false, x.val, JsRat.ofInt (-1), .plain⟩
        dc).map (fun p => p.1 ++ " tail"))) ∧
    (w.typeof ≠ .number →
      buildString fuel ["", ":", " tail"] [v, w] dc = some (.error (.invalidWidth 0 1))) := by
  constructor
  · have hstep := buildLoop_deferred_step ["", ":", " tail"] [v, .num x] dc fuel 2 1 [""]
      v (by decide) rfl rfl hv
    have hpt : parseTail ["", ":", " tail"] [v, .num x] 1 [':'] 1 =
        .ok (':' :: ' ' :: ['t', 'a', 'i', 'l'], 1, x.val, JsRat.ofInt (-1), .plain, 1) := rfl
    show (buildLoop ["", ":", " tail"] [v, .num x] dc fuel (2 + 1) 1 [""]).map
      (Except.map String.join) = _
    rw [hstep, hpt]
    dsimp only
    rcases hfp : formatParam v ⟨" ", .right, .blank, false, false, x.val, JsRat.ofInt (-1), .plain⟩
        dc with e | p
    · rfl
    · rfl
  · intro hwt
    have hstep := buildLoop_deferred_step ["", ":", " tail"] [v, w] dc fuel 2 1 [""]
      v (by decide) rfl rfl hv
    have hpt : parseTail ["", ":", " tail"] [v, w] 1 [':'] 1 =
        .error (.invalidWidth 0 1) := by
      cases w with
      | num y => exact absurd rfl hwt
      | str s => rfl
      | bigint n => rfl
      | obj => rfl
      | undef => rfl
      | paramRef r => rfl
    show (buildLoop ["", ":", " tail"] [v, w] dc fuel (2 + 1) 1 [""]).map
      (Except.map String.join) = _
    rw [hstep, hpt]
    rfl

/-- Counterexample to C6 as stated: a deferred width of 1.5 — not an integer —
does not raise InvalidWidth; the render completes (JS string repeat truncates
the fractional pad count). -/
theorem buildString_noninteger_width_cex :
    buildString 3 ["", ":", " tail"] [.str "a", .num ⟨false, 1, [5]⟩] false =
      some (.ok "a tail") := by
  rfl

theorem buildString_deferred_width_witness :
    buildString 3 ["", ":", " tail"] [.str "a", .num ⟨false, 4, []⟩] false =
      some (.ok "   a tail") ∧
    buildString 3 ["", ":", " tail"] [.str "a", .str "b"] false =
      some (.error (.invalidWidth 0 1)) :=
  ⟨((buildString_deferred_width (.str "a") (.str "b") ⟨false, 4, []⟩ false 3 rfl).1).trans
      (by rfl),
    (buildString_deferred_width (.str "a") (.str "b") ⟨false, 4, []⟩ false 3 rfl).2
      (by decide)⟩

end RsFormat
